import Mathlib

/-!
Verification of the persistent memory store of the todo-agent repository
(`src/todo/memory.py`, class `MemoryManager`), shallowly embedded in Lean.

Timestamps (`datetime.now().isoformat()`) are modelled as opaque strings
passed explicitly to each operation that reads the clock.  The Python
in-memory document `self.memory` is modelled by the structure `Memory`;
the `user_name` dictionary entry is modelled as `Option (Option String)`:
`none` means the key is absent from the dictionary, `some none` means it
is present with value `None` (JSON null), and `some (some s)` means it
holds the string `s`.  Each mutating operation returns, besides its
textual result, the new in-memory document and a flag recording whether
`save_memory` was called.
-/

/-- A todo item: `{id, task, created_at, completed}` in `memory.py`. -/
structure TodoItem where
  id : Nat
  task : String
  created_at : String
  completed : Bool
deriving Repr, DecidableEq

/-- A conversation entry: `{timestamp, user, assistant}` in `add_conversation`. -/
structure ConvEntry where
  timestamp : String
  user : String
  assistant : String
deriving Repr, DecidableEq

/-- The in-memory Memory Document (`self.memory` in `MemoryManager`). -/
structure Memory where
  conversation_history : List ConvEntry
  user_name : Option (Option String)
  todos : List TodoItem
  created_at : String
  last_updated : String
deriving Repr, DecidableEq

/-- The default document built by `load_memory` when the backing file is
missing or fails to parse: empty history and todos, `user_name = None`
(the key is present, holding null), both timestamps set to now. -/
def freshMemory (now : String) : Memory :=
  { conversation_history := []
  , user_name := some none
  , todos := []
  , created_at := now
  , last_updated := now }

/-- Python's `str.lower()`, modelled character-wise (on the ASCII task
strings of this program it agrees with Python's Unicode lowercasing). -/
def pyLower (s : String) : String := ⟨s.data.map Char.toLower⟩

/-- Python rendering of an optional string inside an f-string:
`None` prints as "None", a string prints as itself. -/
def pyShow : Option String → String
  | none => "None"
  | some s => s

/-- Embeds `save_memory`: it overwrites `last_updated` with the current
time in the in-memory document (the file write itself is modelled
separately, see `writeFile`). -/
def save_memory (m : Memory) (now : String) : Memory :=
  { m with last_updated := now }

/-- Embeds `get_user_name`: `self.memory.get("user_name", "Friend")`.
The default "Friend" applies only when the key is absent; when the key
is present its value (possibly `None`) is returned unchanged. -/
def get_user_name (m : Memory) : Option String :=
  match m.user_name with
  | none => some "Friend"
  | some v => v

/-- Embeds `set_user_name`: overwrites the name and saves. -/
def set_user_name (m : Memory) (name now : String) : Memory :=
  save_memory { m with user_name := some (some name) } now

/-- Embeds `add_conversation`: appends an entry stamped now, truncates
the history to its last 50 entries when it exceeds 50, and saves. -/
def add_conversation (m : Memory) (u a now : String) : Memory :=
  let h := m.conversation_history ++ [⟨now, u, a⟩]
  let h := if h.length > 50 then h.drop (h.length - 50) else h
  save_memory { m with conversation_history := h } now

/-- The active (not completed) todos, in stored order; this is the filter
used by `list_todos`, `remove_todo` and the duplicate check of `add_todo`. -/
def activeTodos (m : Memory) : List TodoItem :=
  m.todos.filter (fun t => !t.completed)

/-- Embeds `add_todo`: case-insensitive duplicate check against active
tasks; on a duplicate returns the notice with no mutation and no save,
otherwise appends an item with `id = len(todos) + 1` and saves.
Returns (text, new document, whether a save happened). -/
def add_todo (m : Memory) (task now : String) : String × Memory × Bool :=
  let existing_tasks := (m.todos.filter (fun t => !t.completed)).map (fun t => pyLower t.task)
  if pyLower task ∈ existing_tasks then
    (s!"'{task}' is already in your to-do list.", m, false)
  else
    let todo_item : TodoItem :=
      { id := m.todos.length + 1, task := task, created_at := now, completed := false }
    let m := { m with todos := m.todos ++ [todo_item] }
    (s!"Added '{task}' to your to-do list.", save_memory m now, true)

/-- Embeds `list_todos`: renders the active items as a numbered list
(numbered from 1 by `enumerate(todos, 1)`), or the fixed empty-list text. -/
def list_todos (m : Memory) : String :=
  let todos := m.todos.filter (fun t => !t.completed)
  if todos.isEmpty then
    "Your to-do list is empty. Great job staying on top of things!"
  else
    let todo_text := todos.enum.foldl
      (fun acc it => acc ++ s!"{it.1 + 1}. {it.2.task}\n")
      "Your current to-do list:\n"
    todo_text.trim

/-- The fixed sentinel synonyms recognised by `remove_todo`'s bulk mode. -/
def allSentinels : List String := ["all", "everything", "all todos", "all tasks"]

/-- Embeds the single-removal loop of `remove_todo`: walks the stored
todos in order and flips `completed` on the first active item whose task
matches the (already lowercased) key; `none` when no active item matches. -/
def removeFirst (key : String) : List TodoItem → Option (List TodoItem)
  | [] => none
  | t :: ts =>
      if pyLower t.task = key && !t.completed then
        some ({ t with completed := true } :: ts)
      else
        (removeFirst key ts).map (t :: ·)

/-- Embeds `remove_todo`: bulk mode on an "all" sentinel (soft-delete
every active item, save, report the count; already-empty list is a no-op
with no save), otherwise soft-delete the first case-insensitive active
match and save, or report not-found with no mutation. -/
def remove_todo (m : Memory) (task now : String) : String × Memory × Bool :=
  if pyLower task ∈ allSentinels then
    let active_todos := m.todos.filter (fun t => !t.completed)
    if active_todos.isEmpty then
      ("Your to-do list is already empty.", m, false)
    else
      let count := active_todos.length
      let m := { m with todos := m.todos.map (fun t => if t.completed then t else { t with completed := true }) }
      (s!"Removed all {count} tasks from your to-do list.", save_memory m now, true)
  else
    match removeFirst (pyLower task) m.todos with
    | some ts => (s!"Removed '{task}' from your to-do list.", save_memory { m with todos := ts } now, true)
    | none => (s!"Task '{task}' not found in your to-do list.", m, false)

/-- Embeds `get_context_for_llm`: the user-name line, then (when the
history is non-empty) a header and the last 5 exchanges rendered
oldest-to-newest as `User:`/`Assistant:` line pairs. -/
def get_context_for_llm (m : Memory) : String :=
  let context := s!"User's name: {pyShow (get_user_name m)}\n"
  let recent_history := m.conversation_history.drop (m.conversation_history.length - 5)
  if recent_history.isEmpty then
    context
  else
    recent_history.foldl
      (fun acc e => acc ++ s!"User: {e.user}\nAssistant: {e.assistant}\n")
      (context ++ "\nRecent conversation:\n")

/-- JSON values, as produced by Python's `json.load` on the backing file.
Numbers occurring in the Memory Document are the integer todo ids, so a
natural-number payload suffices here. -/
inductive Json where
  | null : Json
  | bool : Bool → Json
  | str : String → Json
  | num : Nat → Json
  | arr : List Json → Json
  | obj : List (String × Json) → Json
deriving Repr

/-- Dictionary lookup `j[k]` on a JSON value: `some` only when `j` is an
object containing key `k`; `none` models the `KeyError`/`TypeError` that
Python raises on any other value. -/
def Json.getField (j : Json) (k : String) : Option Json :=
  match j with
  | .obj fields => (fields.find? (fun f => f.1 = k)).map (·.2)
  | _ => none

/-- Serialization of a todo item, mirroring the dict literal in `add_todo`. -/
def TodoItem.toJson (t : TodoItem) : Json :=
  .obj [("id", .num t.id), ("task", .str t.task),
        ("created_at", .str t.created_at), ("completed", .bool t.completed)]

/-- Serialization of a conversation entry, mirroring `add_conversation`. -/
def ConvEntry.toJson (e : ConvEntry) : Json :=
  .obj [("timestamp", .str e.timestamp), ("user", .str e.user), ("assistant", .str e.assistant)]

/-- Serialization of the Memory Document, with the key order of the
default structure in `load_memory`.  An absent `user_name` key is simply
not emitted; a present one serializes `None` as JSON null. -/
def Memory.toJson (m : Memory) : Json :=
  .obj ([("conversation_history", .arr (m.conversation_history.map ConvEntry.toJson))]
        ++ (match m.user_name with
            | none => []
            | some none => [("user_name", .null)]
            | some (some s) => [("user_name", .str s)])
        ++ [("todos", .arr (m.todos.map TodoItem.toJson)),
            ("created_at", .str m.created_at),
            ("last_updated", .str m.last_updated)])

/-- Decodes a list of JSON values element-wise, failing if any element fails. -/
def decodeList (dec : Json → Option α) : List Json → Option (List α)
  | [] => some []
  | j :: js =>
      match dec j, decodeList dec js with
      | some a, some as => some (a :: as)
      | _, _ => none

/-- Decoding a todo item from JSON (the Memory Document schema). -/
def decodeTodoItem (j : Json) : Option TodoItem :=
  match j.getField "id", j.getField "task", j.getField "created_at", j.getField "completed" with
  | some (.num i), some (.str t), some (.str c), some (.bool b) =>
      some { id := i, task := t, created_at := c, completed := b }
  | _, _, _, _ => none

/-- Decoding a conversation entry from JSON (the Memory Document schema). -/
def decodeConvEntry (j : Json) : Option ConvEntry :=
  match j.getField "timestamp", j.getField "user", j.getField "assistant" with
  | some (.str ts), some (.str u), some (.str a) => some { timestamp := ts, user := u, assistant := a }
  | _, _, _ => none

/-- Decoding the `user_name` entry of the document object: the key may be
absent, null, or a string; any other value is not schema-conforming. -/
def decodeUserName (j : Json) : Option (Option (Option String)) :=
  match j.getField "user_name" with
  | none => some none
  | some .null => some (some none)
  | some (.str s) => some (some (some s))
  | some _ => none

/-- Decoding the full Memory Document schema from JSON; `none` when the
value does not conform to the schema. -/
def decodeMemory (j : Json) : Option Memory :=
  match j.getField "conversation_history", j.getField "todos",
        j.getField "created_at", j.getField "last_updated", decodeUserName j with
  | some (.arr hs), some (.arr ts), some (.str ca), some (.str lu), some un =>
      match decodeList decodeConvEntry hs, decodeList decodeTodoItem ts with
      | some history, some todos =>
          some { conversation_history := history, user_name := un
               , todos := todos, created_at := ca, last_updated := lu }
      | _, _ => none
  | _, _, _, _, _ => none

/-- The backing file's contents: `none` means the file is missing,
`some none` a file whose text does not parse as JSON, `some (some j)` a
file whose text parses to the JSON value `j`. -/
def FileContents : Type := Option (Option Json)

/-- Embeds `load_memory`: a file that parses as JSON is returned verbatim
(as the raw dictionary — no schema validation is performed); a missing or
non-JSON file falls back to the default fresh structure. -/
def load_memory (file : FileContents) (now : String) : Json :=
  match file with
  | some (some j) => j
  | _ => (freshMemory now).toJson

/-- Embeds the file write performed by `save_memory`: the document, with
`last_updated` rewritten to the save time, serialized to the backing file. -/
def writeFile (m : Memory) (now : String) : FileContents :=
  some (some (save_memory m now).toJson)

/-- One call into the store's mutating surface, with its clock readings. -/
inductive Op where
  | addTodo : String → String → Op
  | removeTodo : String → String → Op
  | addConv : String → String → String → Op
  | setName : String → String → Op

/-- Applying one operation to the in-memory document. -/
def stepOp (m : Memory) : Op → Memory
  | .addTodo task now => (add_todo m task now).2.1
  | .removeTodo task now => (remove_todo m task now).2.1
  | .addConv u a now => add_conversation m u a now
  | .setName name now => set_user_name m name now

/-- Running a sequence of operations against the store. -/
def runOps (m : Memory) : List Op → Memory
  | [] => m
  | op :: ops => runOps (stepOp m op) ops

/-- Ids of the stored todos are exactly `1, 2, ..., len` in stored order. -/
def idsSequential (m : Memory) : Prop :=
  m.todos.map (fun t => t.id) = List.range' 1 m.todos.length

/-- Rendering of the context string transcribed from the specification's
words: the current user-name line, followed by (when any history exists)
the "Recent conversation" header and the most recent 5 conversation
entries, oldest-to-newest, as alternating user/assistant lines. -/
def contextSpec (m : Memory) : String :=
  let nameLine := s!"User's name: {pyShow (get_user_name m)}\n"
  let window := (m.conversation_history.reverse.take 5).reverse
  if window = [] then
    nameLine
  else
    nameLine ++ "\nRecent conversation:\n"
      ++ String.join (window.map (fun e => s!"User: {e.user}\nAssistant: {e.assistant}\n"))


/-! ### Helper lemmas -/

theorem string_foldl_append : ∀ (xs : List String) (acc : String),
    xs.foldl (fun a s => a ++ s) acc = acc ++ String.join xs := by
  intro xs
  induction xs with
  | nil => intro acc; simp [String.join]
  | cons x xs ih =>
      intro acc
      have hj : String.join (x :: xs) = x ++ String.join xs := by
        show (x :: xs).foldl (fun a s => a ++ s) "" = x ++ String.join xs
        rw [List.foldl_cons, ih, String.empty_append]
      rw [List.foldl_cons, ih, hj, String.append_assoc]

theorem foldl_render_append (f : α → String) (xs : List α) (acc : String) :
    xs.foldl (fun a x => a ++ f x) acc = acc ++ String.join (xs.map f) := by
  rw [← List.foldl_map, string_foldl_append]

theorem removeFirst_none (key : String) :
    ∀ (ts : List TodoItem),
      (∀ u ∈ ts, ¬(pyLower u.task = key ∧ u.completed = false)) →
      removeFirst key ts = none := by
  intro ts
  induction ts with
  | nil => intro _; rfl
  | cons t ts ih =>
      intro h
      have ht := h t (List.mem_cons_self t ts)
      have hcond : (pyLower t.task = key && !t.completed) = false := by
        cases hc : t.completed with
        | false =>
            cases he : decide (pyLower t.task = key) with
            | false => simp_all
            | true => exact absurd ⟨of_decide_eq_true he, hc⟩ ht
        | true => simp [hc]
      simp only [removeFirst, hcond, Bool.false_eq_true, if_false]
      rw [ih (fun u hu => h u (List.mem_cons_of_mem _ hu))]
      rfl

theorem removeFirst_first_match (key : String) :
    ∀ (pre : List TodoItem) (t : TodoItem) (post : List TodoItem),
      (∀ u ∈ pre, ¬(pyLower u.task = key ∧ u.completed = false)) →
      pyLower t.task = key → t.completed = false →
      removeFirst key (pre ++ t :: post) = some (pre ++ { t with completed := true } :: post) := by
  intro pre
  induction pre with
  | nil =>
      intro t post _ hm hc
      simp only [List.nil_append, removeFirst, hm, hc]
      simp
  | cons p pre ih =>
      intro t post hpre hm hc
      have hp := hpre p (List.mem_cons_self p pre)
      have hcond : (pyLower p.task = key && !p.completed) = false := by
        cases hcp : p.completed with
        | false =>
            cases he : decide (pyLower p.task = key) with
            | false => simp_all
            | true => exact absurd ⟨of_decide_eq_true he, hcp⟩ hp
        | true => simp [hcp]
      simp only [List.cons_append, removeFirst, hcond, Bool.false_eq_true, if_false,
        List.append_eq]
      rw [ih t post (fun u hu => hpre u (List.mem_cons_of_mem _ hu)) hm hc]
      rfl

theorem removeFirst_preserves (key : String) :
    ∀ (ts ts' : List TodoItem), removeFirst key ts = some ts' →
      ts'.map (fun t => t.id) = ts.map (fun t => t.id) ∧ ts'.length = ts.length := by
  intro ts
  induction ts with
  | nil => intro ts' h; simp [removeFirst] at h
  | cons t ts ih =>
      intro ts' h
      simp only [removeFirst] at h
      by_cases hc : (pyLower t.task = key && !t.completed) = true
      · rw [if_pos hc] at h
        cases h
        simp
      · rw [if_neg hc] at h
        cases hr : removeFirst key ts with
        | none => rw [hr] at h; simp at h
        | some us =>
            rw [hr] at h
            simp only [Option.map_some'] at h
            cases h
            have := ih us hr
            simp [this.1, this.2]

theorem decodeConvEntry_toJson (e : ConvEntry) : decodeConvEntry e.toJson = some e := rfl

theorem decodeTodoItem_toJson (t : TodoItem) : decodeTodoItem t.toJson = some t := rfl

theorem decodeList_map (dec : Json → Option α) (enc : α → Json)
    (h : ∀ x, dec (enc x) = some x) :
    ∀ xs : List α, decodeList dec (xs.map enc) = some xs := by
  intro xs
  induction xs with
  | nil => rfl
  | cons x xs ih => simp [decodeList, h x, ih]

theorem decodeMemory_toJson (m : Memory) : decodeMemory m.toJson = some m := by
  have hh := decodeList_map decodeConvEntry ConvEntry.toJson decodeConvEntry_toJson
    m.conversation_history
  have ht := decodeList_map decodeTodoItem TodoItem.toJson decodeTodoItem_toJson m.todos
  cases hu : m.user_name with
  | none =>
      simp only [Memory.toJson, hu]
      simp only [decodeMemory, decodeUserName, Json.getField, List.find?, List.nil_append,
        List.cons_append, List.append_nil]
      simp [hh, ht, ← hu]
  | some v =>
      cases v with
      | none =>
          simp only [Memory.toJson, hu]
          simp only [decodeMemory, decodeUserName, Json.getField, List.find?, List.nil_append,
            List.cons_append, List.append_nil]
          simp [hh, ht, ← hu]
      | some s =>
          simp only [Memory.toJson, hu]
          simp only [decodeMemory, decodeUserName, Json.getField, List.find?, List.nil_append,
            List.cons_append, List.append_nil]
          simp [hh, ht, ← hu]

theorem add_todo_preserves_rest (m : Memory) (task now : String) :
    ((add_todo m task now).2.1).conversation_history = m.conversation_history
  ∧ ((add_todo m task now).2.1).user_name = m.user_name
  ∧ ((add_todo m task now).2.1).created_at = m.created_at := by
  simp only [add_todo]
  split <;> exact ⟨rfl, rfl, rfl⟩

theorem remove_todo_preserves_rest (m : Memory) (task now : String) :
    ((remove_todo m task now).2.1).conversation_history = m.conversation_history
  ∧ ((remove_todo m task now).2.1).user_name = m.user_name
  ∧ ((remove_todo m task now).2.1).created_at = m.created_at := by
  simp only [remove_todo]
  split
  · split <;> exact ⟨rfl, rfl, rfl⟩
  · split <;> exact ⟨rfl, rfl, rfl⟩

/-! ### Claims -/

/-- C1: for every store state, `add_todo` on a task that case-insensitively
matches the task of some active (not completed) todo returns the
duplicate-notice text and mutates nothing — the returned document is the
old one, unchanged in every field, and no save occurs; on a task with no
active match it appends exactly one new item (id `len + 1`, created now,
not completed), saves, and returns the confirmation text; consequently
adding "Buy milk" and then "buy milk" leaves exactly one active item. -/
theorem add_todo_duplicate_suppression (m : Memory) (task now : String) :
    (pyLower task ∈ (activeTodos m).map (fun t => pyLower t.task) →
      add_todo m task now = (s!"'{task}' is already in your to-do list.", m, false))
  ∧ (pyLower task ∉ (activeTodos m).map (fun t => pyLower t.task) →
      add_todo m task now =
        (s!"Added '{task}' to your to-do list.",
         { m with
             todos := m.todos ++
               [{ id := m.todos.length + 1, task := task, created_at := now, completed := false }],
             last_updated := now },
         true))
  ∧ (activeTodos (add_todo ((add_todo (freshMemory "t0") "Buy milk" "t1").2.1)
        "buy milk" "t2").2.1).length = 1 := by
  refine ⟨?_, ?_, by decide⟩
  · intro h
    simp only [activeTodos] at h
    simp only [add_todo, if_pos h]
  · intro h
    simp only [activeTodos] at h
    simp only [add_todo, if_neg h]
    rfl

/-- Witness for C1: the duplicate branch at "Buy milk" then "buy milk",
and the fresh-add branch on an empty store. -/
theorem add_todo_duplicate_suppression_witness :
    add_todo ((add_todo (freshMemory "t0") "Buy milk" "t1").2.1) "buy milk" "t2"
      = ("'buy milk' is already in your to-do list.",
         (add_todo (freshMemory "t0") "Buy milk" "t1").2.1, false)
  ∧ add_todo (freshMemory "t0") "Buy milk" "t1"
      = ("Added 'Buy milk' to your to-do list.",
         { conversation_history := [], user_name := some none,
           todos := [{ id := 1, task := "Buy milk", created_at := "t1", completed := false }],
           created_at := "t0", last_updated := "t1" },
         true) := by
  constructor
  · exact (add_todo_duplicate_suppression
      ((add_todo (freshMemory "t0") "Buy milk" "t1").2.1) "buy milk" "t2").1 (by decide)
  · have h := (add_todo_duplicate_suppression (freshMemory "t0") "Buy milk" "t1").2.1 (by decide)
    rw [h]
    rfl

set_option maxRecDepth 10000

/-- C2: starting from a history of length at most 50, every saving
operation keeps the length at most 50: `add_conversation` appends the new
entry and retains exactly the most recent entries (the tail of the
appended history), and no other operation changes the history at all; in
particular appending entries 1..60 to a fresh store leaves exactly
entries 11..60. -/
theorem conversation_history_bound (m : Memory) (u a now : String)
    (h : m.conversation_history.length ≤ 50) :
    (add_conversation m u a now).conversation_history.length ≤ 50
  ∧ (add_conversation m u a now).conversation_history
      = (m.conversation_history ++ [({ timestamp := now, user := u, assistant := a } : ConvEntry)]).drop
          (m.conversation_history.length + 1 - 50)
  ∧ (∀ task t, ((add_todo m task t).2.1).conversation_history = m.conversation_history)
  ∧ (∀ task t, ((remove_todo m task t).2.1).conversation_history = m.conversation_history)
  ∧ (∀ name t, (set_user_name m name t).conversation_history = m.conversation_history)
  ∧ (runOps (freshMemory "t0")
        ((List.range 60).map (fun i => Op.addConv (toString (i + 1)) "r" "t"))).conversation_history
      = (List.range' 11 50).map (fun i => ({ timestamp := "t", user := toString i, assistant := "r" } : ConvEntry)) := by
  refine ⟨?_, ?_, fun task t => (add_todo_preserves_rest m task t).1,
    fun task t => (remove_todo_preserves_rest m task t).1, fun name t => rfl, by decide⟩
  · simp only [add_conversation, save_memory]
    split
    · simp only [List.length_drop, List.length_append, List.length_cons, List.length_nil]
      omega
    · rename_i hle
      simp only [Nat.not_lt, List.length_append, List.length_cons, List.length_nil] at hle
      simp only [List.length_append, List.length_cons, List.length_nil]
      omega
  · simp only [add_conversation, save_memory]
    split
    · simp only [List.length_append, List.length_cons, List.length_nil]
    · rename_i hle
      simp only [Nat.not_lt, List.length_append, List.length_cons, List.length_nil] at hle
      have h0 : m.conversation_history.length + 1 - 50 = 0 := by omega
      rw [h0, List.drop_zero]

/-- Witness for C2 on a fresh store: one appended exchange, bound holds. -/
theorem conversation_history_bound_witness :
    (add_conversation (freshMemory "t0") "hi" "hello" "t1").conversation_history.length ≤ 50 :=
  (conversation_history_bound (freshMemory "t0") "hi" "hello" "t1" (by decide)).1

/-- A store with three active items, for the bulk-remove witness. -/
def exampleThreeTodos : Memory :=
  { conversation_history := []
  , user_name := some none
  , todos :=
      [ { id := 1, task := "a", created_at := "t1", completed := false }
      , { id := 2, task := "b", created_at := "t2", completed := false }
      , { id := 3, task := "c", created_at := "t3", completed := false } ]
  , created_at := "t0"
  , last_updated := "t3" }

/-- C3: for every store with at least one active item, `remove_todo` on a
task that case-insensitively equals one of the "all" sentinels soft-deletes
every active item (every stored item ends up completed), saves, and
returns the message citing the number of previously active items; the
subsequent `list_todos` reports the empty-list text. -/
theorem remove_todo_all_bulk (m : Memory) (task now : String)
    (hs : pyLower task ∈ allSentinels) (hne : activeTodos m ≠ []) :
    remove_todo m task now =
      (s!"Removed all {(activeTodos m).length} tasks from your to-do list.",
       save_memory
         { m with todos := m.todos.map (fun t => if t.completed then t else { t with completed := true }) }
         now,
       true)
  ∧ (∀ t ∈ (remove_todo m task now).2.1.todos, t.completed = true)
  ∧ list_todos (remove_todo m task now).2.1
      = "Your to-do list is empty. Great job staying on top of things!" := by
  have hE : (m.todos.filter (fun t => !t.completed)).isEmpty = false := by
    simp only [List.isEmpty_eq_false]
    simpa [activeTodos] using hne
  have hmain : remove_todo m task now =
      (s!"Removed all {(activeTodos m).length} tasks from your to-do list.",
       save_memory
         { m with todos := m.todos.map (fun t => if t.completed then t else { t with completed := true }) }
         now,
       true) := by
    simp only [remove_todo, if_pos hs, hE, Bool.false_eq_true, if_false]
    rfl
  have hall : ∀ t ∈ (remove_todo m task now).2.1.todos, t.completed = true := by
    rw [hmain]
    intro t ht
    simp only [save_memory] at ht
    obtain ⟨x, _, rfl⟩ := List.mem_map.mp ht
    by_cases hc : x.completed
    · simp [hc]
    · simp [hc]
  refine ⟨hmain, hall, ?_⟩
  have hf : ((remove_todo m task now).2.1.todos.filter (fun t => !t.completed)) = [] := by
    rw [List.filter_eq_nil_iff]
    intro t ht
    simp [hall t ht]
  simp only [list_todos, hf]
  rfl

/-- Witness for C3: three active items, message cites 3, listing empty. -/
theorem remove_todo_all_bulk_witness :
    (remove_todo exampleThreeTodos "all" "t4").1 = "Removed all 3 tasks from your to-do list."
  ∧ list_todos (remove_todo exampleThreeTodos "all" "t4").2.1
      = "Your to-do list is empty. Great job staying on top of things!" := by
  have h := remove_todo_all_bulk exampleThreeTodos "all" "t4" (by decide) (by decide)
  exact ⟨by rw [h.1]; rfl, h.2.2⟩

/-- C10: on a store with no active items, `remove_todo` with an "all"
sentinel returns the fixed already-empty message, performs no save, and
returns the document unchanged in every field (in particular
`last_updated` does not advance). -/
theorem remove_todo_all_already_empty (m : Memory) (task now : String)
    (hs : pyLower task ∈ allSentinels) (he : activeTodos m = []) :
    remove_todo m task now = ("Your to-do list is already empty.", m, false) := by
  have hE : (m.todos.filter (fun t => !t.completed)).isEmpty = true := by
    simp only [List.isEmpty_eq_true]
    simpa [activeTodos] using he
  simp only [remove_todo, if_pos hs, hE, if_true]

/-- Witness for C10 on a fresh store, with the "Everything" sentinel
spelling. -/
theorem remove_todo_all_already_empty_witness :
    remove_todo (freshMemory "t0") "Everything" "t1"
      = ("Your to-do list is already empty.", freshMemory "t0", false) :=
  remove_todo_all_already_empty (freshMemory "t0") "Everything" "t1" (by decide) (by decide)

/-- A store with one active item and one already soft-deleted item, for
the single-removal witness. -/
def exampleMixedTodos : Memory :=
  { conversation_history := []
  , user_name := some none
  , todos :=
      [ { id := 1, task := "Buy milk", created_at := "t1", completed := false }
      , { id := 2, task := "Walk dog", created_at := "t2", completed := true } ]
  , created_at := "t0"
  , last_updated := "t2" }

/-- C4: `remove_todo` on a non-sentinel task soft-deletes only the first
active case-insensitive match in insertion order: the stored sequence
keeps its length, the matched item merely gets `completed := true`, every
other item is untouched, the result is the confirmation text with a save;
the active listing afterwards is the old one minus that item, so when no
other active item carries the same task the listing no longer shows it.
When no active item matches (including an already-soft-deleted task) the
result is the not-found text and the document is returned unchanged with
no save. -/
theorem remove_todo_first_active_match (m : Memory) (task now : String)
    (hns : pyLower task ∉ allSentinels) :
    (∀ pre t post,
      m.todos = pre ++ t :: post →
      (∀ u ∈ pre, ¬(pyLower u.task = pyLower task ∧ u.completed = false)) →
      pyLower t.task = pyLower task → t.completed = false →
        remove_todo m task now =
          (s!"Removed '{task}' from your to-do list.",
           { m with todos := pre ++ { t with completed := true } :: post, last_updated := now },
           true)
        ∧ (pre ++ { t with completed := true } :: post).length = m.todos.length
        ∧ activeTodos { m with todos := pre ++ { t with completed := true } :: post }
            = pre.filter (fun u => !u.completed) ++ post.filter (fun u => !u.completed)
        ∧ ((∀ u ∈ post, ¬(pyLower u.task = pyLower task ∧ u.completed = false)) →
            ∀ u ∈ activeTodos { m with todos := pre ++ { t with completed := true } :: post },
              pyLower u.task ≠ pyLower task))
  ∧ ((∀ u ∈ m.todos, ¬(pyLower u.task = pyLower task ∧ u.completed = false)) →
      remove_todo m task now = (s!"Task '{task}' not found in your to-do list.", m, false)) := by
  constructor
  · intro pre t post heq hpre hm hc
    have hrf : removeFirst (pyLower task) m.todos
        = some (pre ++ { t with completed := true } :: post) := by
      rw [heq]
      exact removeFirst_first_match (pyLower task) pre t post hpre hm hc
    have hmain : remove_todo m task now =
        (s!"Removed '{task}' from your to-do list.",
         { m with todos := pre ++ { t with completed := true } :: post, last_updated := now },
         true) := by
      simp only [remove_todo, if_neg hns, hrf]
      rfl
    have hact : activeTodos { m with todos := pre ++ { t with completed := true } :: post }
        = pre.filter (fun u => !u.completed) ++ post.filter (fun u => !u.completed) := by
      simp [activeTodos, List.filter_append, List.filter_cons]
    refine ⟨hmain, ?_, hact, ?_⟩
    · rw [heq]
      simp
    · intro hpost u hu
      rw [hact] at hu
      rcases List.mem_append.mp hu with h1 | h1
      · obtain ⟨hmem, hcomp⟩ := List.mem_filter.mp h1
        intro heq2
        exact hpre u hmem ⟨heq2, by simpa using hcomp⟩
      · obtain ⟨hmem, hcomp⟩ := List.mem_filter.mp h1
        intro heq2
        exact hpost u hmem ⟨heq2, by simpa using hcomp⟩
  · intro hnone
    have hrf : removeFirst (pyLower task) m.todos = none :=
      removeFirst_none (pyLower task) m.todos hnone
    simp only [remove_todo, if_neg hns, hrf]

/-- Witness for C4: removing "BUY MILK" soft-deletes the stored
"Buy milk" item in place, and removing the already-soft-deleted
"Walk dog" reports not-found with no mutation. -/
theorem remove_todo_first_active_match_witness :
    remove_todo exampleMixedTodos "BUY MILK" "t9"
      = ("Removed 'BUY MILK' from your to-do list.",
         { conversation_history := [], user_name := some none,
           todos :=
             [ { id := 1, task := "Buy milk", created_at := "t1", completed := true }
             , { id := 2, task := "Walk dog", created_at := "t2", completed := true } ],
           created_at := "t0", last_updated := "t9" },
         true)
  ∧ remove_todo exampleMixedTodos "Walk dog" "t9"
      = ("Task 'Walk dog' not found in your to-do list.", exampleMixedTodos, false) := by
  constructor
  · have h := (remove_todo_first_active_match exampleMixedTodos "BUY MILK" "t9" (by decide)).1
      [] { id := 1, task := "Buy milk", created_at := "t1", completed := false }
      [{ id := 2, task := "Walk dog", created_at := "t2", completed := true }]
      rfl (by simp) (by decide) rfl
    rw [h.1]
    rfl
  · exact (remove_todo_first_active_match exampleMixedTodos "Walk dog" "t9" (by decide)).2
      (by decide)

/-- C5: on a freshly initialized document, `get_user_name` does not
return the default sentinel "Friend": the fresh document stores
`user_name = None` with the key present, so the `dict.get` default is
skipped and Python `None` comes back (rendering as "None" in an
f-string).  The "Friend" default fires only when the `user_name` key is
absent from the document, and after `set_user_name(name)` the stored
name is returned. -/
theorem get_user_name_fresh_returns_none :
    get_user_name (freshMemory "t0") = none
  ∧ get_user_name (freshMemory "t0") ≠ some "Friend"
  ∧ pyShow (get_user_name (freshMemory "t0")) = "None"
  ∧ get_user_name { freshMemory "t0" with user_name := none } = some "Friend"
  ∧ (∀ m name now, get_user_name (set_user_name m name now) = some name) :=
  ⟨rfl, by decide, rfl, rfl, fun _ _ _ => rfl⟩

/-- C6 counterexample: the backing-file text `[]` parses as JSON but not
as the Memory Document schema, yet `load_memory` returns it verbatim
rather than initializing a fresh document (the fresh document conforms
to the schema; this value does not), and the dictionary access
`memory["todos"]` performed by the subsequent store operations fails on
it. -/
theorem load_memory_nonschema_counterexample :
    load_memory (some (some (Json.arr []))) "t0" = Json.arr []
  ∧ decodeMemory (Json.arr []) = none
  ∧ decodeMemory ((freshMemory "t0").toJson) = some (freshMemory "t0")
  ∧ (Json.arr []).getField "todos" = none :=
  ⟨rfl, rfl, decodeMemory_toJson _, rfl⟩

/-- C6 amended: a missing backing file or one whose text fails to parse
as JSON initializes the fresh document, whose todos and conversation
history are empty; but a file that parses as JSON without conforming to
the Memory Document schema is loaded verbatim, not replaced by a fresh
document. -/
theorem load_memory_fresh_on_unparseable :
    (∀ now, load_memory none now = (freshMemory now).toJson)
  ∧ (∀ now, load_memory (some none) now = (freshMemory now).toJson)
  ∧ (∀ now, (freshMemory now).todos = [] ∧ (freshMemory now).conversation_history = [])
  ∧ (∀ j now, load_memory (some (some j)) now = j) :=
  ⟨fun _ => rfl, fun _ => rfl, fun _ => ⟨rfl, rfl⟩, fun _ _ => rfl⟩

/-- C9: writing the document to the backing file and loading it back
round-trips: the loaded JSON is exactly the serialized saved document,
which decodes to a document equal to the in-memory one field for field,
except that `last_updated` is rewritten to the save time. -/
theorem save_load_roundtrip (m : Memory) (t tload : String) :
    load_memory (writeFile m t) tload = (save_memory m t).toJson
  ∧ decodeMemory ((save_memory m t).toJson) = some (save_memory m t)
  ∧ (save_memory m t).user_name = m.user_name
  ∧ (save_memory m t).todos = m.todos
  ∧ (save_memory m t).conversation_history = m.conversation_history
  ∧ (save_memory m t).created_at = m.created_at
  ∧ (save_memory m t).last_updated = t :=
  ⟨rfl, decodeMemory_toJson _, rfl, rfl, rfl, rfl, rfl⟩

theorem stepOp_preserves_idsSequential (m : Memory) (op : Op)
    (h : idsSequential m) : idsSequential (stepOp m op) := by
  cases op with
  | addTodo task now =>
      simp only [stepOp, add_todo]
      split
      · exact h
      · simp only [idsSequential, save_memory] at h ⊢
        rw [List.map_append, List.length_append, h]
        simp [List.range'_concat]
        omega
  | removeTodo task now =>
      simp only [stepOp, remove_todo]
      split
      · split
        · exact h
        · simp only [idsSequential, save_memory] at h ⊢
          rw [List.map_map, List.length_map]
          have hco : ((fun t => t.id) ∘
              (fun t => if t.completed then t else { t with completed := true }))
              = fun (t : TodoItem) => t.id := by
            funext t
            by_cases hc : t.completed <;> simp [hc]
          rw [hco, h]
      · split
        · rename_i ts hts
          simp only [idsSequential, save_memory] at h ⊢
          obtain ⟨hids, hlen⟩ := removeFirst_preserves _ _ _ hts
          rw [hids, hlen, h]
        · exact h
  | addConv u a now => exact h
  | setName name now => exact h

theorem runOps_preserves_idsSequential :
    ∀ (ops : List Op) (m : Memory), idsSequential m → idsSequential (runOps m ops) := by
  intro ops
  induction ops with
  | nil => intro m h; exact h
  | cons op ops ih => intro m h; exact ih _ (stepOp_preserves_idsSequential m op h)

/-- C7: every successful `add_todo` appends exactly the item with
`id = len(todos) + 1` (a duplicate add leaves the list unchanged), and
along every operation sequence from a fresh store — soft-deletes
included, which never change the stored ids — the stored ids are exactly
`1, 2, 3, ...` in creation order. -/
theorem todo_ids_sequential :
    (∀ t0 ops, idsSequential (runOps (freshMemory t0) ops))
  ∧ (∀ m task now,
      (add_todo m task now).2.1.todos = m.todos
      ∨ (add_todo m task now).2.1.todos
          = m.todos ++
              [{ id := m.todos.length + 1, task := task, created_at := now, completed := false }]) := by
  constructor
  · intro t0 ops
    exact runOps_preserves_idsSequential ops _ rfl
  · intro m task now
    simp only [add_todo]
    split
    · exact Or.inl rfl
    · exact Or.inr rfl

/-- C8: `get_context_for_llm` is a pure rendering of the document equal
to the specification's description `contextSpec`: the user-name line
followed by exactly the most recent 5 conversation entries (all of them
when fewer than 5 exist), oldest-to-newest, as alternating
user/assistant lines; with empty history it is the name line only, and
after 7 appended entries only entries 3..7 appear. -/
theorem get_context_for_llm_window :
    (∀ m, get_context_for_llm m = contextSpec m)
  ∧ (∀ m, m.conversation_history = [] →
        get_context_for_llm m = s!"User's name: {pyShow (get_user_name m)}\n")
  ∧ get_context_for_llm (runOps (freshMemory "t0")
        ((List.range 7).map (fun i => Op.addConv (toString (i + 1)) (toString (i + 1)) "t")))
      = "User's name: None\n\nRecent conversation:\n"
          ++ String.join ((List.range' 3 5).map
              (fun i => s!"User: {toString i}\nAssistant: {toString i}\n")) := by
  refine ⟨?_, ?_, by decide⟩
  · intro m
    have hw : (m.conversation_history.reverse.take 5).reverse
        = m.conversation_history.drop (m.conversation_history.length - 5) := by
      rw [List.take_reverse, List.reverse_reverse]
    simp only [get_context_for_llm, contextSpec]
    rw [hw]
    by_cases he : m.conversation_history.drop (m.conversation_history.length - 5) = []
    · simp [he]
    · have hb : (m.conversation_history.drop (m.conversation_history.length - 5)).isEmpty
          = false := by
        simp [List.isEmpty_eq_false, he]
      simp only [hb, Bool.false_eq_true, if_false]
      rw [if_neg he,
        foldl_render_append (fun e : ConvEntry => s!"User: {e.user}\nAssistant: {e.assistant}\n"),
        String.append_assoc]
  · intro m he
    simp [get_context_for_llm, he]

/-- Witness for C8's empty-history arm on a fresh store. -/
theorem get_context_for_llm_window_witness :
    get_context_for_llm (freshMemory "t0") = "User's name: None\n" := by
  have h := get_context_for_llm_window.2.1 (freshMemory "t0") rfl
  rw [h]
  rfl
